import Mathlib

/-!
Verification of the payment-flow backend core: the wallet ledger engine
(`wallets.service.ts`) and the purchase orchestrator (`orders.service.ts`).

The embedding models the four durable tables (wallets, wallet_transactions,
products, orders) as a `Db` record.  Monetary amounts are integers counting
minor units (cents): the store keeps fixed-point decimals with two fraction
digits and the services do exact arithmetic on them, so scaling by 100 is a
faithful, lossless view ($199.99 is `19999`).
Each service method becomes a function `Db → Except BusinessError (Db × _)`;
a thrown exception inside a Prisma `$transaction` rolls the whole unit back,
which the embedding renders by the `.error` branch carrying no state: the
caller keeps the pre-call `Db` (made explicit by `commitState`).

Wallets are keyed by their owner's user id: the schema keeps a surrogate
`wallet.id` in bijection with `userId` (unique constraint), and every service
method looks wallets up by `userId`, so ledger entries reference their wallet
by the owner id here.
-/

namespace PaymentFlow

/-- Ledger entry kinds (`TransactionType` in the Prisma schema). -/
inductive TransactionType
  | DEPOSIT
  | WITHDRAWAL
  | PAYMENT
  | EARNING
  | REFUND
deriving DecidableEq, Repr

/-- Ledger entry statuses (`TransactionStatus`). -/
inductive TransactionStatus
  | PENDING
  | COMPLETED
  | FAILED
  | REVERSED
deriving DecidableEq, Repr

/-- Order statuses (`OrderStatus`). -/
inductive OrderStatus
  | PENDING
  | PAYMENT_PROCESSING
  | COMPLETED
  | FAILED
  | CANCELLED
  | REFUNDED
deriving DecidableEq, Repr

/-- Payment methods (`PaymentMethod`). -/
inductive PaymentMethod
  | WALLET
  | GATEWAY
deriving DecidableEq, Repr

/-- A wallet row: owner id, current balance, locked flag. -/
structure Wallet where
  userId : String
  balance : Int
  isLocked : Bool
deriving DecidableEq, Repr

/-- A `wallet_transactions` row (ledger entry). -/
structure WalletTransaction where
  walletId : String
  type : TransactionType
  status : TransactionStatus
  amount : Int
  balanceBefore : Int
  balanceAfter : Int
  description : String
  referenceType : Option String := none
  referenceId : Option String := none
deriving DecidableEq, Repr

/-- A product row. -/
structure Product where
  id : String
  name : String
  price : Int
  availableUnits : Int
  isActive : Bool
  merchantId : String
deriving DecidableEq, Repr

/-- An order row.  `hasCompletedAt` records presence of the completion
timestamp. -/
structure Order where
  id : String
  userId : String
  productId : String
  merchantId : String
  paymentMethod : PaymentMethod
  status : OrderStatus
  amount : Int
  idempotencyKey : String
  stripeSessionId : Option String := none
  stripePaymentIntentId : Option String := none
  hasCompletedAt : Bool := false
deriving DecidableEq, Repr

/-- The durable state: the four tables plus the user table (only existence
of a user is consulted by the order paths).  The ledger and order lists are
kept newest-first. -/
structure Db where
  wallets : List Wallet
  walletTransactions : List WalletTransaction
  products : List Product
  orders : List Order
  users : List String
deriving DecidableEq, Repr

/-- The business exceptions thrown by the services
(`business.exceptions.ts`, plus Nest's `NotFoundException` /
`BadRequestException` uses in the services). -/
inductive BusinessError
  | WalletNotFound
  | UserNotFound
  | OrderNotFound
  | WalletLocked
  | InsufficientFunds (required available : Int)
  | InvalidDepositAmount (max : Int)
  | InvalidWithdrawalAmount (min max : Int)
  | ProductNotFound (productId : String)
  | ProductOutOfStock (name : String)
  | ProductNotActive
deriving DecidableEq, Repr

/-- Configured limits (`app.config.ts`: `maximumDeposit`,
`minimumWithdrawal`). -/
structure AppConfig where
  maximumDeposit : Int
  minimumWithdrawal : Int
deriving Repr

/-- The defaults from `app.config.ts` / the unit-test configuration:
$10000.00 maximum deposit and $1.00 minimum withdrawal, in cents. -/
def defaultConfig : AppConfig :=
  { maximumDeposit := 1000000, minimumWithdrawal := 100 }

/-- `tx.wallet.findUnique({ where: { userId } })`. -/
def findWallet (db : Db) (userId : String) : Option Wallet :=
  db.wallets.find? (fun w => w.userId == userId)

/-- `tx.wallet.update({ where: { userId }, data: { balance } })`. -/
def setWalletBalance (db : Db) (userId : String) (newBalance : Int) : Db :=
  { db with
      wallets := db.wallets.map
        (fun w => if w.userId == userId then { w with balance := newBalance } else w) }

/-- `tx.walletTransaction.create` (append-only ledger, newest first). -/
def addTransaction (db : Db) (t : WalletTransaction) : Db :=
  { db with walletTransactions := t :: db.walletTransactions }

/-- `products` lookup by id (both the raw `SELECT ... FOR UPDATE` and
`product.findUnique` read the same row). -/
def findProduct (db : Db) (productId : String) : Option Product :=
  db.products.find? (fun p => p.id == productId)

/-- `tx.product.update({ data: { availableUnits: { decrement: 1 } } })`. -/
def decrementProductUnits (db : Db) (productId : String) : Db :=
  { db with
      products := db.products.map
        (fun p => if p.id == productId then { p with availableUnits := p.availableUnits - 1 } else p) }

/-- `tx.order.create`. -/
def addOrder (db : Db) (o : Order) : Db :=
  { db with orders := o :: db.orders }

/-- `tx.order.update({ where: { id } })`. -/
def setOrder (db : Db) (orderId : String) (o' : Order) : Db :=
  { db with orders := db.orders.map (fun o => if o.id == orderId then o' else o) }

/-- `user.findUnique({ where: { id } })` reduced to existence. -/
def userExists (db : Db) (userId : String) : Bool :=
  db.users.contains userId

/-- The `findFirst({ where: { stripeSessionId } })` predicate. -/
def sessionMatches (sessionId : String) (o : Order) : Bool :=
  o.stripeSessionId == some sessionId

/-- The state visible after a `$transaction`: the new state on commit, the
unchanged pre-call state on rollback (any thrown error). -/
def commitState {α : Type} (db : Db) (r : Except BusinessError (Db × α)) : Db :=
  match r with
  | .ok (db', _) => db'
  | .error _ => db

/-- Caller-visible state for the `tx`-level wallet mutators, which return
only the mutated state. -/
def commitWallet (db : Db) (r : Except BusinessError Db) : Db :=
  match r with
  | .ok db' => db'
  | .error _ => db

/-- `WalletsService.deposit`.  Faithful to the source: the only amount
validation at the service level is `amount > maxDeposit`; amounts ≤ 0 are
not rejected here (the HTTP DTO carries an `IsPositive` validator). -/
def deposit (cfg : AppConfig) (db : Db) (userId : String) (amount : Int)
    (description : Option String) :
    Except BusinessError (Db × Wallet × WalletTransaction) :=
  if cfg.maximumDeposit < amount then
    .error (.InvalidDepositAmount cfg.maximumDeposit)
  else
    match findWallet db userId with
    | none => .error .WalletNotFound
    | some wallet =>
      if wallet.isLocked then
        .error .WalletLocked
      else
        let balanceBefore := wallet.balance
        let balanceAfter := balanceBefore + amount
        let t : WalletTransaction :=
          { walletId := userId
            type := TransactionType.DEPOSIT
            status := TransactionStatus.COMPLETED
            amount := amount
            balanceBefore := balanceBefore
            balanceAfter := balanceAfter
            description := description.getD "Wallet deposit" }
        .ok (addTransaction (setWalletBalance db userId balanceAfter) t,
             { wallet with balance := balanceAfter }, t)

/-- `WalletsService.withdraw`. -/
def withdraw (cfg : AppConfig) (db : Db) (userId : String) (amount : Int)
    (description : Option String) :
    Except BusinessError (Db × Wallet × WalletTransaction) :=
  if amount < cfg.minimumWithdrawal then
    .error (.InvalidWithdrawalAmount cfg.minimumWithdrawal cfg.maximumDeposit)
  else
    match findWallet db userId with
    | none => .error .WalletNotFound
    | some wallet =>
      if wallet.isLocked then
        .error .WalletLocked
      else
        let balanceBefore := wallet.balance
        if balanceBefore < amount then
          .error (.InsufficientFunds amount balanceBefore)
        else
          let balanceAfter := balanceBefore - amount
          let t : WalletTransaction :=
            { walletId := userId
              type := TransactionType.WITHDRAWAL
              status := TransactionStatus.COMPLETED
              amount := amount
              balanceBefore := balanceBefore
              balanceAfter := balanceAfter
              description := description.getD "Wallet withdrawal" }
          .ok (addTransaction (setWalletBalance db userId balanceAfter) t,
               { wallet with balance := balanceAfter }, t)

/-- `WalletsService.deductFromWallet` (tx-level debit, PAYMENT entry).
Checks: wallet found, not locked, sufficient balance. -/
def deductFromWallet (db : Db) (userId : String) (amount : Int)
    (referenceType referenceId description : String) :
    Except BusinessError Db :=
  match findWallet db userId with
  | none => .error .WalletNotFound
  | some wallet =>
    if wallet.isLocked then
      .error .WalletLocked
    else
      let balanceBefore := wallet.balance
      if balanceBefore < amount then
        .error (.InsufficientFunds amount balanceBefore)
      else
        let balanceAfter := balanceBefore - amount
        let t : WalletTransaction :=
          { walletId := userId
            type := TransactionType.PAYMENT
            status := TransactionStatus.COMPLETED
            amount := amount
            balanceBefore := balanceBefore
            balanceAfter := balanceAfter
            description := description
            referenceType := some referenceType
            referenceId := some referenceId }
        .ok (addTransaction (setWalletBalance db userId balanceAfter) t)

/-- `WalletsService.creditToWallet` (tx-level credit, EARNING entry).
Faithful to the source: the only check is that the wallet exists — there is
no locked-flag check and no amount validation on this path. -/
def creditToWallet (db : Db) (userId : String) (amount : Int)
    (referenceType referenceId description : String) :
    Except BusinessError Db :=
  match findWallet db userId with
  | none => .error .WalletNotFound
  | some wallet =>
    let balanceBefore := wallet.balance
    let balanceAfter := balanceBefore + amount
    let t : WalletTransaction :=
      { walletId := userId
        type := TransactionType.EARNING
        status := TransactionStatus.COMPLETED
        amount := amount
        balanceBefore := balanceBefore
        balanceAfter := balanceAfter
        description := description
        referenceType := some referenceType
        referenceId := some referenceId }
    .ok (addTransaction (setWalletBalance db userId balanceAfter) t)

/-- `OrdersService.createWalletOrder`.  The fresh idempotency key and the
store-generated order id are passed explicitly.  Check order as in the
source: product found, stock, active; then debit buyer, credit merchant,
decrement stock, insert the COMPLETED order. -/
def createWalletOrder (db : Db) (userId productId idempotencyKey newOrderId : String) :
    Except BusinessError (Db × Order) :=
  match findProduct db productId with
  | none => .error (.ProductNotFound productId)
  | some lockedProduct =>
    if lockedProduct.availableUnits ≤ 0 then
      .error (.ProductOutOfStock lockedProduct.name)
    else if !lockedProduct.isActive then
      .error .ProductNotActive
    else
      let amount := lockedProduct.price
      let merchantId := lockedProduct.merchantId
      match deductFromWallet db userId amount "order" idempotencyKey
          ("Purchase: " ++ lockedProduct.name) with
      | .error e => .error e
      | .ok db1 =>
        match creditToWallet db1 merchantId amount "order" idempotencyKey
            ("Sale: " ++ lockedProduct.name) with
        | .error e => .error e
        | .ok db2 =>
          let db3 := decrementProductUnits db2 productId
          let newOrder : Order :=
            { id := newOrderId
              userId := userId
              productId := productId
              merchantId := merchantId
              paymentMethod := PaymentMethod.WALLET
              status := OrderStatus.COMPLETED
              amount := amount
              idempotencyKey := idempotencyKey
              hasCompletedAt := true }
          .ok (addOrder db3 newOrder, newOrder)

/-- `OrdersService.createGatewayOrder`.  Validates product (active, in
stock) and user, then inserts a PENDING order carrying the external session
id.  The Stripe session id and the store-generated order id are passed
explicitly; no wallet or stock mutation occurs. -/
def createGatewayOrder (db : Db)
    (userId productId idempotencyKey sessionId newOrderId : String) :
    Except BusinessError (Db × Order) :=
  match findProduct db productId with
  | none => .error (.ProductNotFound productId)
  | some product =>
    if !product.isActive then
      .error .ProductNotActive
    else if product.availableUnits ≤ 0 then
      .error (.ProductOutOfStock product.name)
    else if !userExists db userId then
      .error .UserNotFound
    else
      let amount := product.price
      let order : Order :=
        { id := newOrderId
          userId := userId
          productId := productId
          merchantId := product.merchantId
          paymentMethod := PaymentMethod.GATEWAY
          status := OrderStatus.PENDING
          amount := amount
          idempotencyKey := idempotencyKey
          stripeSessionId := some sessionId }
      .ok (addOrder db order, order)

/-- `OrdersService.completeGatewayOrder`.  Looks the order up by session
id; an already-COMPLETED order is returned unchanged.  Otherwise, inside
one transaction: re-check stock, credit the merchant, decrement stock, and
mark the order COMPLETED with the payment-intent id. -/
def completeGatewayOrder (db : Db) (sessionId paymentIntentId : String) :
    Except BusinessError (Db × Order) :=
  match db.orders.find? (sessionMatches sessionId) with
  | none => .error .OrderNotFound
  | some order =>
    if order.status == OrderStatus.COMPLETED then
      .ok (db, order)
    else
      match findProduct db order.productId with
      | none => .error (.ProductNotFound order.productId)
      | some lockedProduct =>
        if lockedProduct.availableUnits ≤ 0 then
          .error (.ProductOutOfStock lockedProduct.name)
        else
          match creditToWallet db order.merchantId order.amount "order"
              order.idempotencyKey ("Sale: " ++ lockedProduct.name ++ " (Stripe)") with
          | .error e => .error e
          | .ok db1 =>
            let db2 := decrementProductUnits db1 order.productId
            let updated : Order :=
              { order with
                  status := OrderStatus.COMPLETED
                  stripePaymentIntentId := some paymentIntentId
                  hasCompletedAt := true }
            .ok (setOrder db2 order.id updated, updated)

deriving instance DecidableEq for Except

/-- The committed operations of the core, as invoked through the public
service surface: the four ledger-engine methods and the three orchestrator
entry points. -/
inductive WalletOp
  | depositOp (userId : String) (amount : Int) (description : Option String)
  | withdrawOp (userId : String) (amount : Int) (description : Option String)
  | deductOp (userId : String) (amount : Int) (referenceId description : String)
  | creditOp (userId : String) (amount : Int) (referenceId description : String)
  | walletOrderOp (userId productId idempotencyKey newOrderId : String)
  | gatewayCreateOp (userId productId idempotencyKey sessionId newOrderId : String)
  | gatewayCompleteOp (sessionId paymentIntentId : String)

/-- Run one operation and keep the caller-visible state: the mutated state
on commit, the unchanged state when the transaction rolled back. -/
def runOp (cfg : AppConfig) (db : Db) : WalletOp → Db
  | .depositOp u a d =>
    match deposit cfg db u a d with
    | .ok (db', _, _) => db'
    | .error _ => db
  | .withdrawOp u a d =>
    match withdraw cfg db u a d with
    | .ok (db', _, _) => db'
    | .error _ => db
  | .deductOp u a rid d => commitWallet db (deductFromWallet db u a "order" rid d)
  | .creditOp u a rid d => commitWallet db (creditToWallet db u a "order" rid d)
  | .walletOrderOp u pid k oid => commitState db (createWalletOrder db u pid k oid)
  | .gatewayCreateOp u pid k sid oid =>
    commitState db (createGatewayOrder db u pid k sid oid)
  | .gatewayCompleteOp sid pid => commitState db (completeGatewayOrder db sid pid)

/-- A sequence of committed operations. -/
def runOps (cfg : AppConfig) (db : Db) (ops : List WalletOp) : Db :=
  ops.foldl (runOp cfg) db

/-- The per-entry ledger invariant: `balance-after = balance-before ±
amount` following each kind's sign convention (`+` for DEPOSIT/EARNING,
`-` for WITHDRAWAL/PAYMENT). -/
def entryDeltaOk (t : WalletTransaction) : Bool :=
  match t.type with
  | .DEPOSIT => t.balanceAfter == t.balanceBefore + t.amount
  | .EARNING => t.balanceAfter == t.balanceBefore + t.amount
  | .WITHDRAWAL => t.balanceAfter == t.balanceBefore - t.amount
  | .PAYMENT => t.balanceAfter == t.balanceBefore - t.amount
  | .REFUND => true

/-- Every committed ledger entry satisfies the sign-convention invariant. -/
def ledgerDeltasOk (db : Db) : Prop :=
  ∀ t ∈ db.walletTransactions, entryDeltaOk t = true

/-- The most recently written ledger entry of a wallet (the ledger list is
newest-first). -/
def latestEntryFor (db : Db) (userId : String) : Option WalletTransaction :=
  db.walletTransactions.find? (fun t => t.walletId == userId)

/-- A wallet's current balance agrees with the `balance-after` of its most
recently written entry (vacuous for a wallet with no entries yet). -/
def chainOk (db : Db) (w : Wallet) : Bool :=
  match latestEntryFor db w.userId with
  | none => true
  | some t => w.balance == t.balanceAfter

/-- The balance/ledger chaining invariant over all wallets. -/
def balancesChained (db : Db) : Prop :=
  ∀ w ∈ db.wallets, chainOk db w = true

/-- Every wallet balance is nonnegative. -/
def nonnegBalances (db : Db) : Prop :=
  ∀ w ∈ db.wallets, 0 ≤ w.balance

/-- Every product price is nonnegative (enforced at product creation by the
`IsPositive` DTO validator). -/
def nonnegPrices (db : Db) : Prop :=
  ∀ p ∈ db.products, 0 ≤ p.price

/-- Every order amount is nonnegative (amounts are snapshotted product
prices). -/
def nonnegOrderAmounts (db : Db) : Prop :=
  ∀ o ∈ db.orders, 0 ≤ o.amount

/-- The direct amounts an operation carries are nonnegative; only the
deposit and credit paths need this (withdraw and debit are guarded by the
balance check). -/
def opAmountsNonneg : WalletOp → Prop
  | .depositOp _ a _ => 0 ≤ a
  | .creditOp _ a _ _ => 0 ≤ a
  | _ => True

deriving instance DecidableEq for Except

/-- Example product for exercising the wallet path: $199.99, five units. -/
def c1Product : Product :=
  { id := "prod-1", name := "Widget", price := 19999, availableUnits := 5,
    isActive := true, merchantId := "merchant-1" }

/-- Example buyer wallet with a $500.00 balance. -/
def c1Buyer : Wallet := { userId := "buyer-1", balance := 50000, isLocked := false }

/-- Example merchant wallet with a $10.00 balance. -/
def c1Merchant : Wallet := { userId := "merchant-1", balance := 1000, isLocked := false }

/-- Store state for exercising a successful wallet purchase. -/
def c1Db : Db :=
  { wallets := [c1Buyer, c1Merchant], walletTransactions := [],
    products := [c1Product], orders := [], users := ["buyer-1", "merchant-1"] }

/-- A sold-out product awaiting a gateway confirmation. -/
def c2Product : Product :=
  { id := "prod-2", name := "Gadget", price := 4999, availableUnits := 0,
    isActive := true, merchantId := "merchant-2" }

/-- The PENDING gateway order whose product sold out before confirmation. -/
def c2Order : Order :=
  { id := "order-2", userId := "buyer-2", productId := "prod-2",
    merchantId := "merchant-2", paymentMethod := PaymentMethod.GATEWAY,
    status := OrderStatus.PENDING, amount := 4999, idempotencyKey := "key-2",
    stripeSessionId := some "sess-2" }

/-- Store state for the gateway-completion-after-sell-out race. -/
def c2Db : Db :=
  { wallets := [{ userId := "merchant-2", balance := 0, isLocked := false }],
    walletTransactions := [], products := [c2Product], orders := [c2Order],
    users := ["buyer-2"] }

/-- Product for the insufficient-funds scenario: $199.99, in stock. -/
def c3Product : Product :=
  { id := "prod-3", name := "Premium Widget", price := 19999, availableUnits := 3,
    isActive := true, merchantId := "merchant-3" }

/-- Store state for the insufficient-funds scenario: buyer holds $50.00. -/
def c3Db : Db :=
  { wallets := [{ userId := "buyer-3", balance := 5000, isLocked := false },
                { userId := "merchant-3", balance := 0, isLocked := false }],
    walletTransactions := [], products := [c3Product], orders := [],
    users := ["buyer-3", "merchant-3"] }

/-- Product with one remaining unit for the idempotency scenario. -/
def c4Product : Product :=
  { id := "prod-4", name := "Ticket", price := 2500, availableUnits := 1,
    isActive := true, merchantId := "merchant-4" }

/-- A PENDING gateway order awaiting its confirmation event. -/
def c4Order : Order :=
  { id := "order-4", userId := "buyer-4", productId := "prod-4",
    merchantId := "merchant-4", paymentMethod := PaymentMethod.GATEWAY,
    status := OrderStatus.PENDING, amount := 2500, idempotencyKey := "key-4",
    stripeSessionId := some "sess-4" }

/-- Store state for the double-delivery idempotency scenario. -/
def c4Db : Db :=
  { wallets := [{ userId := "merchant-4", balance := 100, isLocked := false }],
    walletTransactions := [], products := [c4Product], orders := [c4Order],
    users := ["buyer-4"] }

/-- Fresh wallet for the deposit/withdraw round trip. -/
def c5Db : Db :=
  { wallets := [{ userId := "alice", balance := 0, isLocked := false }],
    walletTransactions := [], products := [], orders := [], users := ["alice"] }

/-- The spec's round trip: deposit $500.00 then withdraw $100.00. -/
def c5Ops : List WalletOp :=
  [WalletOp.depositOp "alice" 50000 none, WalletOp.withdrawOp "alice" 10000 none]

/-- A zero-balance, unlocked merchant wallet. -/
def c6Db : Db :=
  { wallets := [{ userId := "merchant-6", balance := 0, isLocked := false }],
    walletTransactions := [], products := [], orders := [], users := [] }

/-- An unlocked wallet holding $50.00. -/
def c7Db : Db :=
  { wallets := [{ userId := "alice", balance := 5000, isLocked := false }],
    walletTransactions := [], products := [], orders := [], users := ["alice"] }

/-- The DEPOSIT entry the service writes for a −$100.00 deposit request. -/
def c7Entry : WalletTransaction :=
  { walletId := "alice", type := TransactionType.DEPOSIT,
    status := TransactionStatus.COMPLETED, amount := -10000,
    balanceBefore := 5000, balanceAfter := -5000,
    description := "Wallet deposit" }

/-- The state the service commits for a −$100.00 deposit request. -/
def c7DbAfter : Db :=
  { wallets := [{ userId := "alice", balance := -5000, isLocked := false }],
    walletTransactions := [c7Entry], products := [], orders := [],
    users := ["alice"] }

/-- A locked wallet holding $10.00. -/
def c8Db : Db :=
  { wallets := [{ userId := "merchant-8", balance := 1000, isLocked := true }],
    walletTransactions := [], products := [], orders := [], users := [] }

/-- The EARNING entry the service writes when crediting the locked wallet. -/
def c8Entry : WalletTransaction :=
  { walletId := "merchant-8", type := TransactionType.EARNING,
    status := TransactionStatus.COMPLETED, amount := 500,
    balanceBefore := 1000, balanceAfter := 1500, description := "Sale: Widget",
    referenceType := some "order", referenceId := some "order-9" }

/-- The state the service commits when crediting the locked wallet. -/
def c8DbAfter : Db :=
  { wallets := [{ userId := "merchant-8", balance := 1500, isLocked := true }],
    walletTransactions := [c8Entry], products := [], orders := [], users := [] }

/-- An active, in-stock product for the gateway-creation frame scenario. -/
def c9Product : Product :=
  { id := "prod-9", name := "Poster", price := 999, availableUnits := 2,
    isActive := true, merchantId := "merchant-9" }

/-- Store state for the gateway-creation frame scenario. -/
def c9Db : Db :=
  { wallets := [{ userId := "buyer-9", balance := 7500, isLocked := false },
                { userId := "merchant-9", balance := 0, isLocked := false }],
    walletTransactions := [], products := [c9Product], orders := [],
    users := ["buyer-9", "merchant-9"] }

/-- An unlocked wallet holding $500.00 for the full-balance withdrawal. -/
def c10Db : Db :=
  { wallets := [{ userId := "alice", balance := 50000, isLocked := false }],
    walletTransactions := [], products := [], orders := [], users := ["alice"] }

@[simp]
theorem addTransaction_wallets (db : Db) (t : WalletTransaction) :
    (addTransaction db t).wallets = db.wallets := rfl

@[simp]
theorem addTransaction_ledger (db : Db) (t : WalletTransaction) :
    (addTransaction db t).walletTransactions = t :: db.walletTransactions := rfl

@[simp]
theorem addTransaction_products (db : Db) (t : WalletTransaction) :
    (addTransaction db t).products = db.products := rfl

@[simp]
theorem addTransaction_orders (db : Db) (t : WalletTransaction) :
    (addTransaction db t).orders = db.orders := rfl

@[simp]
theorem setWalletBalance_wallets (db : Db) (u : String) (b : Int) :
    (setWalletBalance db u b).wallets =
      db.wallets.map (fun w => if w.userId == u then { w with balance := b } else w) := rfl

@[simp]
theorem setWalletBalance_ledger (db : Db) (u : String) (b : Int) :
    (setWalletBalance db u b).walletTransactions = db.walletTransactions := rfl

@[simp]
theorem setWalletBalance_products (db : Db) (u : String) (b : Int) :
    (setWalletBalance db u b).products = db.products := rfl

@[simp]
theorem setWalletBalance_orders (db : Db) (u : String) (b : Int) :
    (setWalletBalance db u b).orders = db.orders := rfl

@[simp]
theorem decrementProductUnits_wallets (db : Db) (pid : String) :
    (decrementProductUnits db pid).wallets = db.wallets := rfl

@[simp]
theorem decrementProductUnits_ledger (db : Db) (pid : String) :
    (decrementProductUnits db pid).walletTransactions = db.walletTransactions := rfl

@[simp]
theorem decrementProductUnits_orders (db : Db) (pid : String) :
    (decrementProductUnits db pid).orders = db.orders := rfl

@[simp]
theorem addOrder_wallets (db : Db) (o : Order) :
    (addOrder db o).wallets = db.wallets := rfl

@[simp]
theorem addOrder_ledger (db : Db) (o : Order) :
    (addOrder db o).walletTransactions = db.walletTransactions := rfl

@[simp]
theorem addOrder_products (db : Db) (o : Order) :
    (addOrder db o).products = db.products := rfl

@[simp]
theorem addOrder_orders (db : Db) (o : Order) :
    (addOrder db o).orders = o :: db.orders := rfl

@[simp]
theorem setOrder_wallets (db : Db) (oid : String) (o' : Order) :
    (setOrder db oid o').wallets = db.wallets := rfl

@[simp]
theorem setOrder_ledger (db : Db) (oid : String) (o' : Order) :
    (setOrder db oid o').walletTransactions = db.walletTransactions := rfl

@[simp]
theorem setOrder_products (db : Db) (oid : String) (o' : Order) :
    (setOrder db oid o').products = db.products := rfl

/-- Updating the matching elements of a list does not disturb a `find?`
whose hit the update maps to the updated hit. -/
theorem find?_map_update {α : Type} (key : α → Bool) (upd : α → α)
    (hkey : ∀ a, key (upd a) = key a) :
    ∀ (l : List α) (w : α), l.find? key = some w →
      (l.map (fun a => if key a then upd a else a)).find? key = some (upd w) := by
  intro l
  induction l with
  | nil => intro w h; simp [List.find?] at h
  | cons a l ih =>
    intro w h
    by_cases ha : key a = true
    · rw [List.find?_cons_of_pos _ ha] at h
      cases h
      simp only [List.map_cons, ha, if_true]
      exact List.find?_cons_of_pos _ (by rw [hkey]; exact ha)
    · rw [List.find?_cons_of_neg _ (by simp [ha])] at h
      simp only [List.map_cons, ha, if_false]
      rw [List.find?_cons_of_neg _ (by simp [ha])]
      exact ih w h

/-- Updating the `key`-matching elements of a list does not disturb a
`find?` over a disjoint key, provided the update preserves the second key's
evaluation. -/
theorem find?_map_update_frame {α : Type} (key key2 : α → Bool) (upd : α → α)
    (hpres : ∀ a, key2 (upd a) = key2 a)
    (hdisj : ∀ a, key2 a = true → key a = false) :
    ∀ l : List α,
      (l.map (fun a => if key a then upd a else a)).find? key2 = l.find? key2 := by
  intro l
  induction l with
  | nil => simp
  | cons a l ih =>
    by_cases h2 : key2 a = true
    · simp [List.find?_cons, hdisj a h2, h2]
    · simp only [List.map_cons]
      by_cases hk : key a = true
      · simp only [hk, if_true]
        rw [List.find?_cons_of_neg _ (by rw [hpres]; simp [h2]),
          List.find?_cons_of_neg _ (by simp [h2])]
        exact ih
      · simp only [hk, if_false]
        rw [List.find?_cons_of_neg _ (by simp [h2]),
          List.find?_cons_of_neg _ (by simp [h2])]
        exact ih

/-- Successful deposits have the shape written by the source: one balance
update and one appended COMPLETED DEPOSIT entry with before/after
snapshots. -/
theorem deposit_ok_shape {cfg : AppConfig} {db : Db} {u : String} {a : Int}
    {d : Option String} {db' : Db} {w' : Wallet} {t : WalletTransaction}
    (h : deposit cfg db u a d = .ok (db', w', t)) :
    ∃ w, findWallet db u = some w ∧ w.isLocked = false ∧ a ≤ cfg.maximumDeposit ∧
      t = { walletId := u, type := TransactionType.DEPOSIT,
            status := TransactionStatus.COMPLETED, amount := a,
            balanceBefore := w.balance, balanceAfter := w.balance + a,
            description := d.getD "Wallet deposit" } ∧
      w' = { w with balance := w.balance + a } ∧
      db' = addTransaction (setWalletBalance db u (w.balance + a)) t := by
  unfold deposit at h
  split at h
  · exact absurd h (by simp)
  · rename_i hmax
    cases hw : findWallet db u with
    | none => rw [hw] at h; exact absurd h (by simp)
    | some w =>
      rw [hw] at h
      dsimp only at h
      by_cases hl : w.isLocked = true
      · rw [if_pos hl] at h; exact absurd h (by simp)
      · rw [if_neg hl] at h
        simp only [Except.ok.injEq, Prod.mk.injEq] at h
        obtain ⟨hdb, hw', ht⟩ := h
        exact ⟨w, rfl, by simpa using hl, by omega, ht.symm, hw'.symm,
          by rw [← ht, ← hdb]⟩

/-- Successful withdrawals have the shape written by the source. -/
theorem withdraw_ok_shape {cfg : AppConfig} {db : Db} {u : String} {a : Int}
    {d : Option String} {db' : Db} {w' : Wallet} {t : WalletTransaction}
    (h : withdraw cfg db u a d = .ok (db', w', t)) :
    ∃ w, findWallet db u = some w ∧ w.isLocked = false ∧
      cfg.minimumWithdrawal ≤ a ∧ a ≤ w.balance ∧
      t = { walletId := u, type := TransactionType.WITHDRAWAL,
            status := TransactionStatus.COMPLETED, amount := a,
            balanceBefore := w.balance, balanceAfter := w.balance - a,
            description := d.getD "Wallet withdrawal" } ∧
      w' = { w with balance := w.balance - a } ∧
      db' = addTransaction (setWalletBalance db u (w.balance - a)) t := by
  unfold withdraw at h
  split at h
  · exact absurd h (by simp)
  · rename_i hmin
    cases hw : findWallet db u with
    | none => rw [hw] at h; exact absurd h (by simp)
    | some w =>
      rw [hw] at h
      dsimp only at h
      by_cases hl : w.isLocked = true
      · rw [if_pos hl] at h; exact absurd h (by simp)
      · rw [if_neg hl] at h
        by_cases hb : w.balance < a
        · rw [if_pos hb] at h; exact absurd h (by simp)
        · rw [if_neg hb] at h
          simp only [Except.ok.injEq, Prod.mk.injEq] at h
          obtain ⟨hdb, hw', ht⟩ := h
          exact ⟨w, rfl, by simpa using hl, by omega, by omega, ht.symm, hw'.symm,
            by rw [← ht, ← hdb]⟩

/-- Successful tx-level debits have the shape written by the source:
balance decrease plus one appended COMPLETED PAYMENT entry referencing the
causing order. -/
theorem deduct_ok_shape {db : Db} {u : String} {a : Int}
    {rt rid d : String} {db' : Db}
    (h : deductFromWallet db u a rt rid d = .ok db') :
    ∃ w, findWallet db u = some w ∧ w.isLocked = false ∧ a ≤ w.balance ∧
      db' = addTransaction (setWalletBalance db u (w.balance - a))
        { walletId := u, type := TransactionType.PAYMENT,
          status := TransactionStatus.COMPLETED, amount := a,
          balanceBefore := w.balance, balanceAfter := w.balance - a,
          description := d, referenceType := some rt, referenceId := some rid } := by
  unfold deductFromWallet at h
  cases hw : findWallet db u with
  | none => rw [hw] at h; exact absurd h (by simp)
  | some w =>
    rw [hw] at h
    dsimp only at h
    by_cases hl : w.isLocked = true
    · rw [if_pos hl] at h; exact absurd h (by simp)
    · rw [if_neg hl] at h
      by_cases hb : w.balance < a
      · rw [if_pos hb] at h; exact absurd h (by simp)
      · rw [if_neg hb] at h
        simp only [Except.ok.injEq] at h
        exact ⟨w, rfl, by simpa using hl, by omega, h.symm⟩

/-- Successful tx-level credits have the shape written by the source:
balance increase plus one appended COMPLETED EARNING entry referencing the
causing order.  The source performs no lock check and no amount check on
this path. -/
theorem credit_ok_shape {db : Db} {u : String} {a : Int}
    {rt rid d : String} {db' : Db}
    (h : creditToWallet db u a rt rid d = .ok db') :
    ∃ w, findWallet db u = some w ∧
      db' = addTransaction (setWalletBalance db u (w.balance + a))
        { walletId := u, type := TransactionType.EARNING,
          status := TransactionStatus.COMPLETED, amount := a,
          balanceBefore := w.balance, balanceAfter := w.balance + a,
          description := d, referenceType := some rt, referenceId := some rid } := by
  unfold creditToWallet at h
  cases hw : findWallet db u with
  | none => rw [hw] at h; exact absurd h (by simp)
  | some w =>
    rw [hw] at h
    dsimp only at h
    simp only [Except.ok.injEq] at h
    exact ⟨w, rfl, h.symm⟩

/-- A credit against an existing wallet always succeeds, with the explicit
new state: the source checks nothing beyond wallet existence. -/
theorem credit_ok_of_found {db : Db} {u : String} {w : Wallet}
    (hw : findWallet db u = some w) (a : Int) (rt rid d : String) :
    creditToWallet db u a rt rid d =
      .ok (addTransaction (setWalletBalance db u (w.balance + a))
        { walletId := u, type := TransactionType.EARNING,
          status := TransactionStatus.COMPLETED, amount := a,
          balanceBefore := w.balance, balanceAfter := w.balance + a,
          description := d, referenceType := some rt, referenceId := some rid }) := by
  unfold creditToWallet
  rw [hw]

/-- A debit against an existing, unlocked wallet with sufficient balance
succeeds, with the explicit new state. -/
theorem deduct_ok_of_found {db : Db} {u : String} {w : Wallet} {a : Int}
    (hw : findWallet db u = some w) (hl : w.isLocked = false)
    (hb : a ≤ w.balance) (rt rid d : String) :
    deductFromWallet db u a rt rid d =
      .ok (addTransaction (setWalletBalance db u (w.balance - a))
        { walletId := u, type := TransactionType.PAYMENT,
          status := TransactionStatus.COMPLETED, amount := a,
          balanceBefore := w.balance, balanceAfter := w.balance - a,
          description := d, referenceType := some rt, referenceId := some rid }) := by
  unfold deductFromWallet
  rw [hw]
  dsimp only
  rw [if_neg (by simp [hl]), if_neg (by omega)]

/-- Successful wallet-path purchases decompose into the source's step
sequence: reserve and re-read the product, debit the buyer, credit the
merchant, decrement stock, insert the COMPLETED order. -/
theorem walletOrder_ok_shape {db : Db} {u pid k oid : String}
    {db' : Db} {o : Order}
    (h : createWalletOrder db u pid k oid = .ok (db', o)) :
    ∃ p db1 db2, findProduct db pid = some p ∧ 0 < p.availableUnits ∧
      p.isActive = true ∧
      deductFromWallet db u p.price "order" k ("Purchase: " ++ p.name) = .ok db1 ∧
      creditToWallet db1 p.merchantId p.price "order" k ("Sale: " ++ p.name) = .ok db2 ∧
      o = { id := oid, userId := u, productId := pid, merchantId := p.merchantId,
            paymentMethod := PaymentMethod.WALLET, status := OrderStatus.COMPLETED,
            amount := p.price, idempotencyKey := k, hasCompletedAt := true } ∧
      db' = addOrder (decrementProductUnits db2 pid) o := by
  unfold createWalletOrder at h
  cases hp : findProduct db pid with
  | none => rw [hp] at h; exact absurd h (by simp)
  | some p =>
    rw [hp] at h
    dsimp only at h
    by_cases hs : p.availableUnits ≤ 0
    · rw [if_pos hs] at h; exact absurd h (by simp)
    · rw [if_neg hs] at h
      by_cases ha : p.isActive = true
      · rw [if_neg (by simp [ha])] at h
        cases hd : deductFromWallet db u p.price "order" k ("Purchase: " ++ p.name) with
        | error e => rw [hd] at h; exact absurd h (by simp)
        | ok db1 =>
          rw [hd] at h
          dsimp only at h
          cases hc : creditToWallet db1 p.merchantId p.price "order" k ("Sale: " ++ p.name) with
          | error e => rw [hc] at h; exact absurd h (by simp)
          | ok db2 =>
            rw [hc] at h
            dsimp only at h
            simp only [Except.ok.injEq, Prod.mk.injEq] at h
            obtain ⟨hdb, ho⟩ := h
            exact ⟨p, db1, db2, rfl, by omega, ha, hd, hc, ho.symm,
              by rw [← ho, ← hdb]⟩
      · rw [if_pos (by simpa using ha)] at h; exact absurd h (by simp)

/-- Successful gateway-path creations decompose into the source's step
sequence: the validated product is untouched and the only write is the new
PENDING order carrying the session id. -/
theorem gatewayCreate_ok_shape {db : Db} {u pid k sid oid : String}
    {db' : Db} {o : Order}
    (h : createGatewayOrder db u pid k sid oid = .ok (db', o)) :
    ∃ p, findProduct db pid = some p ∧ p.isActive = true ∧
      0 < p.availableUnits ∧ userExists db u = true ∧
      o = { id := oid, userId := u, productId := pid, merchantId := p.merchantId,
            paymentMethod := PaymentMethod.GATEWAY, status := OrderStatus.PENDING,
            amount := p.price, idempotencyKey := k, stripeSessionId := some sid } ∧
      db' = addOrder db o := by
  unfold createGatewayOrder at h
  cases hp : findProduct db pid with
  | none => rw [hp] at h; exact absurd h (by simp)
  | some p =>
    rw [hp] at h
    dsimp only at h
    by_cases ha : p.isActive = true
    · rw [if_neg (by simp [ha])] at h
      by_cases hs : p.availableUnits ≤ 0
      · rw [if_pos hs] at h; exact absurd h (by simp)
      · rw [if_neg hs] at h
        by_cases hu : userExists db u = true
        · rw [if_neg (by simp [hu])] at h
          simp only [Except.ok.injEq, Prod.mk.injEq] at h
          obtain ⟨hdb, ho⟩ := h
          exact ⟨p, rfl, ha, by omega, hu, ho.symm, by rw [← ho, ← hdb]⟩
        · rw [if_pos (by simpa using hu)] at h; exact absurd h (by simp)
    · rw [if_pos (by simpa using ha)] at h; exact absurd h (by simp)

/-- Successful gateway completions are either the idempotent no-op on an
already-COMPLETED order, or decompose into the source's step sequence:
re-check stock, credit the merchant, decrement stock, update the order. -/
theorem gatewayComplete_ok_shape {db : Db} {sid pid : String}
    {db' : Db} {o : Order}
    (h : completeGatewayOrder db sid pid = .ok (db', o)) :
    (db' = db ∧ db.orders.find? (sessionMatches sid) = some o ∧
      o.status = OrderStatus.COMPLETED) ∨
    (∃ order p db1, db.orders.find? (sessionMatches sid) = some order ∧
      order.status ≠ OrderStatus.COMPLETED ∧
      findProduct db order.productId = some p ∧ 0 < p.availableUnits ∧
      creditToWallet db order.merchantId order.amount "order"
        order.idempotencyKey ("Sale: " ++ p.name ++ " (Stripe)") = .ok db1 ∧
      o = { order with
              status := OrderStatus.COMPLETED
              stripePaymentIntentId := some pid
              hasCompletedAt := true } ∧
      db' = setOrder (decrementProductUnits db1 order.productId) order.id o) := by
  unfold completeGatewayOrder at h
  cases hord : db.orders.find? (sessionMatches sid) with
  | none => rw [hord] at h; exact absurd h (by simp)
  | some order =>
    rw [hord] at h
    dsimp only at h
    by_cases hst : order.status = OrderStatus.COMPLETED
    · rw [if_pos (by simp [hst])] at h
      simp only [Except.ok.injEq, Prod.mk.injEq] at h
      obtain ⟨hdb, ho⟩ := h
      exact Or.inl ⟨hdb.symm, by rw [ho], by rw [← ho]; exact hst⟩
    · rw [if_neg (by simp [hst])] at h
      cases hp : findProduct db order.productId with
      | none => rw [hp] at h; exact absurd h (by simp)
      | some p =>
        rw [hp] at h
        dsimp only at h
        by_cases hs : p.availableUnits ≤ 0
        · rw [if_pos hs] at h; exact absurd h (by simp)
        · rw [if_neg hs] at h
          cases hc : creditToWallet db order.merchantId order.amount "order"
              order.idempotencyKey ("Sale: " ++ p.name ++ " (Stripe)") with
          | error e => rw [hc] at h; exact absurd h (by simp)
          | ok db1 =>
            rw [hc] at h
            dsimp only at h
            simp only [Except.ok.injEq, Prod.mk.injEq] at h
            obtain ⟨hdb, ho⟩ := h
            exact Or.inr ⟨order, p, db1, rfl, hst, hp, by omega, hc, ho.symm,
              by rw [← ho, ← hdb]⟩

@[simp]
theorem findWallet_addTransaction (db : Db) (t : WalletTransaction) (u : String) :
    findWallet (addTransaction db t) u = findWallet db u := rfl

@[simp]
theorem findWallet_decrement (db : Db) (pid u : String) :
    findWallet (decrementProductUnits db pid) u = findWallet db u := rfl

@[simp]
theorem findWallet_addOrder (db : Db) (o : Order) (u : String) :
    findWallet (addOrder db o) u = findWallet db u := rfl

@[simp]
theorem findWallet_setOrder (db : Db) (oid : String) (o' : Order) (u : String) :
    findWallet (setOrder db oid o') u = findWallet db u := rfl

@[simp]
theorem findProduct_addTransaction (db : Db) (t : WalletTransaction) (pid : String) :
    findProduct (addTransaction db t) pid = findProduct db pid := rfl

@[simp]
theorem findProduct_setWalletBalance (db : Db) (u : String) (b : Int) (pid : String) :
    findProduct (setWalletBalance db u b) pid = findProduct db pid := rfl

@[simp]
theorem findProduct_addOrder (db : Db) (o : Order) (pid : String) :
    findProduct (addOrder db o) pid = findProduct db pid := rfl

@[simp]
theorem findProduct_setOrder (db : Db) (oid : String) (o' : Order) (pid : String) :
    findProduct (setOrder db oid o') pid = findProduct db pid := rfl

/-- Updating a wallet's balance rewrites its own lookup. -/
theorem findWallet_set_self {db : Db} {u : String} {w : Wallet} (b : Int)
    (h : findWallet db u = some w) :
    findWallet (setWalletBalance db u b) u = some { w with balance := b } := by
  unfold findWallet at h ⊢
  simp only [setWalletBalance_wallets]
  exact find?_map_update (fun x : Wallet => x.userId == u)
    (fun x : Wallet => { x with balance := b }) (fun a => rfl) _ _ h

/-- Updating one wallet's balance leaves every other wallet's lookup
unchanged. -/
theorem findWallet_set_ne {u u' : String} (db : Db) (b : Int) (hne : u' ≠ u) :
    findWallet (setWalletBalance db u b) u' = findWallet db u' := by
  unfold findWallet
  simp only [setWalletBalance_wallets]
  apply find?_map_update_frame
  · intro a; rfl
  · intro a ha
    have : a.userId = u' := by simpa using ha
    simp [this, hne]

/-- Decrementing a product's stock rewrites its own lookup. -/
theorem findProduct_decrement_self {db : Db} {pid : String} {p : Product}
    (h : findProduct db pid = some p) :
    findProduct (decrementProductUnits db pid) pid =
      some { p with availableUnits := p.availableUnits - 1 } := by
  unfold findProduct at h ⊢
  simp only [decrementProductUnits]
  exact find?_map_update (fun x : Product => x.id == pid)
    (fun x : Product => { x with availableUnits := x.availableUnits - 1 }) (fun a => rfl) _ _ h

/-- Posting one ledger entry whose `balance-after` is written to its wallet
preserves the balance/ledger chaining invariant. -/
theorem balancesChained_post {db : Db} {u : String} {b : Int} {t : WalletTransaction}
    (ht : t.walletId = u) (htb : t.balanceAfter = b) (h : balancesChained db) :
    balancesChained (addTransaction (setWalletBalance db u b) t) := by
  subst htb
  intro w' hw'
  simp only [addTransaction_wallets, setWalletBalance_wallets] at hw'
  obtain ⟨w, hw, rfl⟩ := List.mem_map.1 hw'
  unfold chainOk latestEntryFor
  simp only [addTransaction_ledger, setWalletBalance_ledger]
  by_cases hu : w.userId = u
  · simp only [hu, beq_self_eq_true, if_true]
    rw [List.find?_cons_of_pos _ (by simp [ht, hu])]
    simp
  · rw [if_neg (by simpa using hu)]
    rw [List.find?_cons_of_neg _ (by simp [ht]; exact fun hh => absurd hh.symm hu)]
    have := h w hw
    unfold chainOk latestEntryFor at this
    exact this

/-- Posting a sign-convention-respecting entry preserves the per-entry
ledger invariant. -/
theorem ledgerDeltasOk_post {db : Db} {u : String} {b : Int} {t : WalletTransaction}
    (ht : entryDeltaOk t = true) (h : ledgerDeltasOk db) :
    ledgerDeltasOk (addTransaction (setWalletBalance db u b) t) := by
  intro t' ht'
  simp only [addTransaction_ledger, setWalletBalance_ledger, List.mem_cons] at ht'
  rcases ht' with rfl | ht'
  · exact ht
  · exact h t' ht'

/-- Writing a nonnegative balance preserves nonnegativity of all wallets. -/
theorem nonnegBalances_set {db : Db} {u : String} {b : Int}
    (hb : nonnegBalances db) (h0 : 0 ≤ b) :
    nonnegBalances (setWalletBalance db u b) := by
  intro w' hw'
  simp only [setWalletBalance_wallets] at hw'
  obtain ⟨w, hw, rfl⟩ := List.mem_map.1 hw'
  by_cases hu : w.userId == u
  · simp [hu, h0]
  · rw [if_neg (by simpa using hu)]
    exact hb w hw

/-- A wallet produced by a lookup is a wallet of the store. -/
theorem findWallet_mem {db : Db} {u : String} {w : Wallet}
    (h : findWallet db u = some w) : w ∈ db.wallets :=
  List.mem_of_find?_eq_some h

/-- A product produced by a lookup is a product of the store. -/
theorem findProduct_mem {db : Db} {pid : String} {p : Product}
    (h : findProduct db pid = some p) : p ∈ db.products :=
  List.mem_of_find?_eq_some h

theorem ledgerDeltasOk_addOrder (db : Db) (o : Order) :
    ledgerDeltasOk (addOrder db o) ↔ ledgerDeltasOk db := Iff.rfl

theorem ledgerDeltasOk_decrement (db : Db) (pid : String) :
    ledgerDeltasOk (decrementProductUnits db pid) ↔ ledgerDeltasOk db := Iff.rfl

theorem ledgerDeltasOk_setOrder (db : Db) (oid : String) (o' : Order) :
    ledgerDeltasOk (setOrder db oid o') ↔ ledgerDeltasOk db := Iff.rfl

theorem balancesChained_addOrder (db : Db) (o : Order) :
    balancesChained (addOrder db o) ↔ balancesChained db := Iff.rfl

theorem balancesChained_decrement (db : Db) (pid : String) :
    balancesChained (decrementProductUnits db pid) ↔ balancesChained db := Iff.rfl

theorem balancesChained_setOrder (db : Db) (oid : String) (o' : Order) :
    balancesChained (setOrder db oid o') ↔ balancesChained db := Iff.rfl

theorem nonnegBalances_addOrder (db : Db) (o : Order) :
    nonnegBalances (addOrder db o) ↔ nonnegBalances db := Iff.rfl

theorem nonnegBalances_decrement (db : Db) (pid : String) :
    nonnegBalances (decrementProductUnits db pid) ↔ nonnegBalances db := Iff.rfl

theorem nonnegBalances_setOrder (db : Db) (oid : String) (o' : Order) :
    nonnegBalances (setOrder db oid o') ↔ nonnegBalances db := Iff.rfl

theorem nonnegBalances_addTransaction (db : Db) (t : WalletTransaction) :
    nonnegBalances (addTransaction db t) ↔ nonnegBalances db := Iff.rfl

/-- One committed operation preserves both ledger invariants: every entry
it writes respects the sign convention, and each touched wallet's balance
ends equal to the `balance-after` of its newly written entry. -/
theorem runOp_preserves_ledger (cfg : AppConfig) {db : Db} (op : WalletOp)
    (hd : ledgerDeltasOk db) (hc : balancesChained db) :
    ledgerDeltasOk (runOp cfg db op) ∧ balancesChained (runOp cfg db op) := by
  cases op with
  | depositOp u a d =>
    simp only [runOp]
    cases h : deposit cfg db u a d with
    | error e => exact ⟨hd, hc⟩
    | ok r =>
      obtain ⟨db', w', t⟩ := r
      obtain ⟨w, hw, hl, hmax, ht, hw', hdb⟩ := deposit_ok_shape h
      subst hdb
      refine ⟨ledgerDeltasOk_post ?_ hd, ?_⟩
      · rw [ht]; simp [entryDeltaOk]
      · exact balancesChained_post (by rw [ht]) (by rw [ht]) hc
  | withdrawOp u a d =>
    simp only [runOp]
    cases h : withdraw cfg db u a d with
    | error e => exact ⟨hd, hc⟩
    | ok r =>
      obtain ⟨db', w', t⟩ := r
      obtain ⟨w, hw, hl, hmin, hb, ht, hw', hdb⟩ := withdraw_ok_shape h
      subst hdb
      refine ⟨ledgerDeltasOk_post ?_ hd, ?_⟩
      · rw [ht]; simp [entryDeltaOk]
      · exact balancesChained_post (by rw [ht]) (by rw [ht]) hc
  | deductOp u a rid d =>
    simp only [runOp]
    cases h : deductFromWallet db u a "order" rid d with
    | error e => exact ⟨hd, hc⟩
    | ok db' =>
      obtain ⟨w, hw, hl, hb, hdb⟩ := deduct_ok_shape h
      subst hdb
      dsimp only [commitWallet]
      exact ⟨ledgerDeltasOk_post (by simp [entryDeltaOk]) hd,
        balancesChained_post rfl rfl hc⟩
  | creditOp u a rid d =>
    simp only [runOp]
    cases h : creditToWallet db u a "order" rid d with
    | error e => exact ⟨hd, hc⟩
    | ok db' =>
      obtain ⟨w, hw, hdb⟩ := credit_ok_shape h
      subst hdb
      dsimp only [commitWallet]
      exact ⟨ledgerDeltasOk_post (by simp [entryDeltaOk]) hd,
        balancesChained_post rfl rfl hc⟩
  | walletOrderOp u pid k oid =>
    simp only [runOp]
    cases h : createWalletOrder db u pid k oid with
    | error e => exact ⟨hd, hc⟩
    | ok r =>
      obtain ⟨db', o⟩ := r
      obtain ⟨p, db1, db2, hp, hs, ha, hdct, hcr, ho, hdb⟩ := walletOrder_ok_shape h
      obtain ⟨w1, hw1, hl1, hb1, hdb1⟩ := deduct_ok_shape hdct
      obtain ⟨w2, hw2, hdb2⟩ := credit_ok_shape hcr
      subst hdb hdb2 hdb1
      dsimp only [commitState]
      refine ⟨?_, ?_⟩
      · rw [ledgerDeltasOk_addOrder, ledgerDeltasOk_decrement]
        exact ledgerDeltasOk_post (by simp [entryDeltaOk])
          (ledgerDeltasOk_post (by simp [entryDeltaOk]) hd)
      · rw [balancesChained_addOrder, balancesChained_decrement]
        exact balancesChained_post rfl rfl (balancesChained_post rfl rfl hc)
  | gatewayCreateOp u pid k sid oid =>
    simp only [runOp]
    cases h : createGatewayOrder db u pid k sid oid with
    | error e => exact ⟨hd, hc⟩
    | ok r =>
      obtain ⟨db', o⟩ := r
      obtain ⟨p, hp, ha, hs, hu, ho, hdb⟩ := gatewayCreate_ok_shape h
      subst hdb
      exact ⟨hd, hc⟩
  | gatewayCompleteOp sid pid =>
    simp only [runOp]
    cases h : completeGatewayOrder db sid pid with
    | error e => exact ⟨hd, hc⟩
    | ok r =>
      obtain ⟨db', o⟩ := r
      rcases gatewayComplete_ok_shape h with ⟨hdb, _, _⟩ | ⟨order, p, db1, hord, hnc, hp, hs, hc1, ho, hdb⟩
      · subst hdb; exact ⟨hd, hc⟩
      · obtain ⟨w2, hw2, hdb1⟩ := credit_ok_shape hc1
        subst hdb hdb1
        dsimp only [commitState]
        refine ⟨?_, ?_⟩
        · rw [ledgerDeltasOk_setOrder, ledgerDeltasOk_decrement]
          exact ledgerDeltasOk_post (by simp [entryDeltaOk]) hd
        · rw [balancesChained_setOrder, balancesChained_decrement]
          exact balancesChained_post rfl rfl hc

/-- One committed operation whose direct amounts are nonnegative keeps all
wallet balances nonnegative, given nonnegative product prices and order
amounts (enforced upstream by the product-creation validators). -/
theorem runOp_preserves_nonneg (cfg : AppConfig) {db : Db} (op : WalletOp)
    (hb : nonnegBalances db) (hp : nonnegPrices db) (ho : nonnegOrderAmounts db)
    (ha : opAmountsNonneg op) :
    nonnegBalances (runOp cfg db op) := by
  cases op with
  | depositOp u a d =>
    simp only [runOp]
    cases h : deposit cfg db u a d with
    | error e => exact hb
    | ok r =>
      obtain ⟨db', w', t⟩ := r
      obtain ⟨w, hw, _, _, ht, _, hdb⟩ := deposit_ok_shape h
      subst hdb
      have h0 : 0 ≤ w.balance := hb w (findWallet_mem hw)
      rw [nonnegBalances_addTransaction]
      exact nonnegBalances_set hb (by simp only [opAmountsNonneg] at ha; omega)
  | withdrawOp u a d =>
    simp only [runOp]
    cases h : withdraw cfg db u a d with
    | error e => exact hb
    | ok r =>
      obtain ⟨db', w', t⟩ := r
      obtain ⟨w, hw, _, _, hbal, ht, _, hdb⟩ := withdraw_ok_shape h
      subst hdb
      rw [nonnegBalances_addTransaction]
      exact nonnegBalances_set hb (by omega)
  | deductOp u a rid d =>
    simp only [runOp]
    cases h : deductFromWallet db u a "order" rid d with
    | error e => exact hb
    | ok db' =>
      obtain ⟨w, hw, _, hbal, hdb⟩ := deduct_ok_shape h
      subst hdb
      dsimp only [commitWallet]
      rw [nonnegBalances_addTransaction]
      exact nonnegBalances_set hb (by omega)
  | creditOp u a rid d =>
    simp only [runOp]
    cases h : creditToWallet db u a "order" rid d with
    | error e => exact hb
    | ok db' =>
      obtain ⟨w, hw, hdb⟩ := credit_ok_shape h
      subst hdb
      dsimp only [commitWallet]
      rw [nonnegBalances_addTransaction]
      have h0 : 0 ≤ w.balance := hb w (findWallet_mem hw)
      exact nonnegBalances_set hb (by simp only [opAmountsNonneg] at ha; omega)
  | walletOrderOp u pid k oid =>
    simp only [runOp]
    cases h : createWalletOrder db u pid k oid with
    | error e => exact hb
    | ok r =>
      obtain ⟨db', o⟩ := r
      obtain ⟨p, db1, db2, hprod, hs, hact, hdct, hcr, ho1, hdb⟩ := walletOrder_ok_shape h
      obtain ⟨w1, hw1, _, hb1, hdb1⟩ := deduct_ok_shape hdct
      obtain ⟨w2, hw2, hdb2⟩ := credit_ok_shape hcr
      subst hdb hdb2 hdb1
      dsimp only [commitState]
      have hprice : 0 ≤ p.price := hp p (findProduct_mem hprod)
      have hafter1 : nonnegBalances (setWalletBalance db u (w1.balance - p.price)) :=
        nonnegBalances_set hb (by omega)
      have h2 : 0 ≤ w2.balance := hafter1 w2 (findWallet_mem hw2)
      rw [nonnegBalances_addOrder, nonnegBalances_decrement,
        nonnegBalances_addTransaction]
      refine nonnegBalances_set ?_ (by omega)
      rw [nonnegBalances_addTransaction]
      exact hafter1
  | gatewayCreateOp u pid k sid oid =>
    simp only [runOp]
    cases h : createGatewayOrder db u pid k sid oid with
    | error e => exact hb
    | ok r =>
      obtain ⟨db', o⟩ := r
      obtain ⟨p, _, _, _, _, _, hdb⟩ := gatewayCreate_ok_shape h
      subst hdb
      exact hb
  | gatewayCompleteOp sid pid =>
    simp only [runOp]
    cases h : completeGatewayOrder db sid pid with
    | error e => exact hb
    | ok r =>
      obtain ⟨db', o⟩ := r
      rcases gatewayComplete_ok_shape h with ⟨hdb, _, _⟩ | ⟨order, p, db1, hord, hnc, hprod, hs, hc1, ho1, hdb⟩
      · subst hdb; exact hb
      · obtain ⟨w2, hw2, hdb1⟩ := credit_ok_shape hc1
        subst hdb hdb1
        dsimp only [commitState]
        have hamt : 0 ≤ order.amount := ho order (List.mem_of_find?_eq_some hord)
        have h2 : 0 ≤ w2.balance := hb w2 (findWallet_mem hw2)
        rw [nonnegBalances_setOrder, nonnegBalances_decrement,
          nonnegBalances_addTransaction]
        exact nonnegBalances_set hb (by omega)

/-- Replacing, by id, the hit of a lookup with a row that still satisfies
the lookup keeps the lookup pointing at the replacement. -/
theorem find?_setOrder_hit {l : List Order} {q : Order → Bool} {order o1 : Order}
    (h : l.find? q = some order) (h1 : q o1 = true) :
    (l.map (fun o => if o.id == order.id then o1 else o)).find? q = some o1 := by
  induction l with
  | nil => simp [List.find?] at h
  | cons a l ih =>
    by_cases ha : q a = true
    · rw [List.find?_cons_of_pos _ ha] at h
      cases h
      simp only [List.map_cons, beq_self_eq_true, if_true]
      exact List.find?_cons_of_pos _ h1
    · rw [List.find?_cons_of_neg _ (by simp [ha])] at h
      simp only [List.map_cons]
      by_cases hid : (a.id == order.id) = true
      · rw [if_pos hid]
        exact List.find?_cons_of_pos _ h1
      · rw [if_neg hid]
        rw [List.find?_cons_of_neg _ (by simp [ha])]
        exact ih h

/-- If no row of the list matches the lookup or carries the replaced id,
the replaced list has no hits at all. -/
theorem filter_setOrder_none {q : Order → Bool} {order o1 : Order} :
    ∀ l : List Order, (∀ o ∈ l, (o.id == order.id) = false ∧ q o = false) →
      (l.map (fun o => if o.id == order.id then o1 else o)).filter q = [] := by
  intro l
  induction l with
  | nil => intro _; simp
  | cons a l ih =>
    intro h
    obtain ⟨hid, hq⟩ := h a (by simp)
    simp only [List.map_cons, hid]
    rw [if_neg (by simp [hid])]
    rw [List.filter_cons_of_neg (by simp [hq])]
    exact ih (fun o ho => h o (by simp [ho]))

/-- If the lookup's unique hit is also the unique holder of its id, the
replaced list's hits are exactly the replacement. -/
theorem filter_setOrder_unique {q : Order → Bool} {order o1 : Order}
    (h1 : q o1 = true) :
    ∀ l : List Order, order ∈ l → (l.map Order.id).Nodup →
      (∀ o ∈ l, q o = true → o = order) →
      (l.map (fun o => if o.id == order.id then o1 else o)).filter q = [o1] := by
  intro l
  induction l with
  | nil => intro hmem; simp at hmem
  | cons a l ih =>
    intro hmem hnd huniq
    simp only [List.map_cons, List.nodup_cons] at hnd
    obtain ⟨hnotin, hndl⟩ := hnd
    by_cases heq : a = order
    · subst heq
      simp only [List.map_cons, beq_self_eq_true, if_true]
      rw [List.filter_cons_of_pos (by simp [h1])]
      rw [filter_setOrder_none l ?_]
      intro o ho
      have hoid : o.id ≠ a.id := by
        intro hcontra
        exact hnotin (hcontra ▸ List.mem_map_of_mem Order.id ho)
      refine ⟨by simp [hoid], ?_⟩
      by_cases hqo : q o = true
      · have := huniq o (by simp [ho]) hqo
        subst this
        exact absurd (List.mem_map_of_mem Order.id ho) (by simpa using hnotin)
      · simpa using hqo
    · have hmem' : order ∈ l := by
        rcases List.mem_cons.1 hmem with h' | h'
        · exact absurd h'.symm heq
        · exact h'
      have haid : (a.id == order.id) = false := by
        have : a.id ≠ order.id := by
          intro hcontra
          exact hnotin (hcontra ▸ List.mem_map_of_mem Order.id hmem')
        simpa using this
      have hqa : q a = false := by
        by_cases hqa' : q a = true
        · exact absurd (huniq a (by simp) hqa') heq
        · simpa using hqa'
      simp only [List.map_cons, haid]
      rw [if_neg (by simp [haid])]
      rw [List.filter_cons_of_neg (by simp [hqa])]
      exact ih hmem' hndl (fun o ho hq => huniq o (by simp [ho]) hq)

/-- C2, counterexample: with the product sold out at confirmation time, the
claim says the order transitions to FAILED; in the code the transaction
throws `ProductOutOfStock` and rolls back, so the caller-visible state is
untouched and the order is still PENDING — it is neither COMPLETED nor
FAILED, contradicting the claim's "not still PENDING". -/
theorem completeGatewayOrder_out_of_stock_claim_cex :
    (c2Db.orders.find? (sessionMatches "sess-2")).map Order.status =
      some OrderStatus.PENDING ∧
    completeGatewayOrder c2Db "sess-2" "pi-2" =
      .error (.ProductOutOfStock "Gadget") ∧
    commitState c2Db (completeGatewayOrder c2Db "sess-2" "pi-2") = c2Db ∧
    ((commitState c2Db (completeGatewayOrder c2Db "sess-2" "pi-2")).orders.find?
        (sessionMatches "sess-2")).map Order.status =
      some OrderStatus.PENDING := by
  decide

/-- C6, counterexample: `creditToWallet` accepts a negative amount (the
service performs no amount validation on this path), and crediting −$1.00
to a zero-balance wallet drives the committed balance below zero, refuting
the claim for "any amount the service-level code does not reject". -/
theorem nonneg_balance_claim_cex :
    nonnegBalances c6Db ∧
    ¬ nonnegBalances (runOp defaultConfig c6Db
        (WalletOp.creditOp "merchant-6" (-100) "order-6" "Sale: Widget")) := by
  constructor
  · unfold nonnegBalances; decide
  · unfold nonnegBalances; decide

/-- C7: the service-level `deposit` accepts the amount −$100.00 (it
validates only `amount > maxDeposit`) and commits it, decreasing the $50.00
balance to −$50.00 and appending a COMPLETED DEPOSIT entry — the claim,
§4.1 of the design, and the repository's own unit test ("should throw error
if amount is negative") all require an invalid-amount failure here. -/
theorem deposit_negative_amount_committed :
    deposit defaultConfig c7Db "alice" (-10000) none =
      .ok (c7DbAfter, { userId := "alice", balance := -5000, isLocked := false },
        c7Entry) := by
  decide

/-- C8, counterexample: the claim says `creditToWallet` fails with
`WalletLocked` on a locked wallet; in the code `creditToWallet` performs no
lock check, so crediting $5.00 to a locked wallet succeeds, changes the
balance, and appends an EARNING entry. -/
theorem locked_wallet_credit_claim_cex :
    (findWallet c8Db "merchant-8").map Wallet.isLocked = some true ∧
    creditToWallet c8Db "merchant-8" 500 "order" "order-9" "Sale: Widget" =
      .ok c8DbAfter ∧
    (findWallet c8DbAfter "merchant-8").map Wallet.balance = some 1500 := by
  decide

/-- C2, amended: when the product's available-units is 0 at confirmation
time, `completeGatewayOrder` fails with `ProductOutOfStock` and the whole
transaction rolls back: no seller credit, no stock change, and the order is
left PENDING (not COMPLETED, but also not marked FAILED — the code records
no failure state). -/
theorem completeGatewayOrder_out_of_stock_aborts (db : Db) (sid pid : String)
    (order : Order) (p : Product)
    (hord : db.orders.find? (sessionMatches sid) = some order)
    (hnc : order.status ≠ OrderStatus.COMPLETED)
    (hp : findProduct db order.productId = some p)
    (hs : p.availableUnits ≤ 0) :
    completeGatewayOrder db sid pid = .error (.ProductOutOfStock p.name) ∧
    commitState db (completeGatewayOrder db sid pid) = db := by
  have h : completeGatewayOrder db sid pid = .error (.ProductOutOfStock p.name) := by
    unfold completeGatewayOrder
    rw [hord]
    dsimp only
    rw [if_neg (by simp [hnc])]
    rw [hp]
    dsimp only
    rw [if_pos hs]
  exact ⟨h, by rw [h]; rfl⟩

/-- C2 witness: the race of §8 — a PENDING gateway order whose product sold
out before the confirmation event is processed. -/
theorem completeGatewayOrder_out_of_stock_aborts_witness :
    completeGatewayOrder c2Db "sess-2" "pi-2" =
      .error (.ProductOutOfStock "Gadget") ∧
    commitState c2Db (completeGatewayOrder c2Db "sess-2" "pi-2") = c2Db := by
  have h := completeGatewayOrder_out_of_stock_aborts c2Db "sess-2" "pi-2"
    c2Order c2Product (by decide) (by decide) (by decide) (by decide)
  exact h

/-- C3: a wallet-path purchase that fails aborts atomically.  With the
product present, in stock and active but the buyer's balance below the
price, the call fails with `InsufficientFunds`; with the product sold out
it fails with `ProductOutOfStock`; and on any error the caller-visible
state is the unchanged pre-call state: no ledger entry, no balance change,
no stock change, and no order row. -/
theorem createWalletOrder_failure_atomic (db : Db) (u pid k oid : String) :
    (∀ p w, findProduct db pid = some p → 0 < p.availableUnits →
      p.isActive = true → findWallet db u = some w → w.isLocked = false →
      w.balance < p.price →
      createWalletOrder db u pid k oid =
        .error (.InsufficientFunds p.price w.balance)) ∧
    (∀ p, findProduct db pid = some p → p.availableUnits ≤ 0 →
      createWalletOrder db u pid k oid = .error (.ProductOutOfStock p.name)) ∧
    (∀ e, createWalletOrder db u pid k oid = .error e →
      commitState db (createWalletOrder db u pid k oid) = db) := by
  refine ⟨?_, ?_, ?_⟩
  · intro p w hp hs ha hw hl hb
    unfold createWalletOrder
    rw [hp]
    dsimp only
    rw [if_neg (by omega), if_neg (by simp [ha])]
    have hded : deductFromWallet db u p.price "order" k ("Purchase: " ++ p.name) =
        .error (.InsufficientFunds p.price w.balance) := by
      unfold deductFromWallet
      rw [hw]
      dsimp only
      rw [if_neg (by simp [hl]), if_pos hb]
    rw [hded]
  · intro p hp hs
    unfold createWalletOrder
    rw [hp]
    dsimp only
    rw [if_pos hs]
  · intro e he
    rw [he]
    rfl

/-- C3 witness: the §8 insufficient-funds scenario — a $50.00 wallet
cannot buy a $199.99 product, and the state is unchanged. -/
theorem createWalletOrder_failure_atomic_witness :
    createWalletOrder c3Db "buyer-3" "prod-3" "key-3" "order-3" =
      .error (.InsufficientFunds 19999 5000) ∧
    commitState c3Db
      (createWalletOrder c3Db "buyer-3" "prod-3" "key-3" "order-3") = c3Db := by
  have h := createWalletOrder_failure_atomic c3Db "buyer-3" "prod-3" "key-3" "order-3"
  have h1 := h.1 c3Product { userId := "buyer-3", balance := 5000, isLocked := false }
    (by decide) (by decide) (by decide) (by decide) (by decide) (by decide)
  exact ⟨h1, h.2.2 _ h1⟩

/-- C8, amended: on a locked wallet, `deductFromWallet` fails with
`WalletLocked` and leaves the state unchanged, but `creditToWallet`
performs no lock check: it succeeds, writing the balance increase and the
EARNING entry even though the wallet is locked. -/
theorem locked_wallet_debit_blocks_credit_bypasses (db : Db) (u : String)
    (w : Wallet) (a : Int) (rt rid d : String)
    (hw : findWallet db u = some w) (hl : w.isLocked = true) :
    deductFromWallet db u a rt rid d = .error .WalletLocked ∧
    commitWallet db (deductFromWallet db u a rt rid d) = db ∧
    creditToWallet db u a rt rid d =
      .ok (addTransaction (setWalletBalance db u (w.balance + a))
        { walletId := u, type := TransactionType.EARNING,
          status := TransactionStatus.COMPLETED, amount := a,
          balanceBefore := w.balance, balanceAfter := w.balance + a,
          description := d, referenceType := some rt, referenceId := some rid }) := by
  have hded : deductFromWallet db u a rt rid d = .error .WalletLocked := by
    unfold deductFromWallet
    rw [hw]
    dsimp only
    rw [if_pos hl]
  exact ⟨hded, by rw [hded]; rfl, credit_ok_of_found hw a rt rid d⟩

/-- C8 witness: the locked $10.00 wallet — debit refused, credit of $5.00
committed regardless of the lock. -/
theorem locked_wallet_debit_blocks_credit_bypasses_witness :
    deductFromWallet c8Db "merchant-8" 500 "order" "order-9" "Sale: Widget" =
      .error .WalletLocked ∧
    commitWallet c8Db
      (deductFromWallet c8Db "merchant-8" 500 "order" "order-9" "Sale: Widget") =
      c8Db ∧
    creditToWallet c8Db "merchant-8" 500 "order" "order-9" "Sale: Widget" =
      .ok (addTransaction
        (setWalletBalance c8Db "merchant-8" (1000 + 500))
        { walletId := "merchant-8", type := TransactionType.EARNING,
          status := TransactionStatus.COMPLETED, amount := 500,
          balanceBefore := 1000, balanceAfter := 1000 + 500,
          description := "Sale: Widget", referenceType := some "order",
          referenceId := some "order-9" }) := by
  exact locked_wallet_debit_blocks_credit_bypasses c8Db "merchant-8"
    { userId := "merchant-8", balance := 1000, isLocked := true }
    500 "order" "order-9" "Sale: Widget" (by decide) (by decide)

/-- C9: a successful gateway-path creation writes exactly one PENDING order
carrying the session id whose amount is the product's price, and nothing
else: wallets, ledger and products are exactly as before the call. -/
theorem createGatewayOrder_frame (db : Db) (u pid k sid oid : String)
    (p : Product) (hp : findProduct db pid = some p) (ha : p.isActive = true)
    (hs : 0 < p.availableUnits) (hu : userExists db u = true) :
    ∃ o, createGatewayOrder db u pid k sid oid = .ok (addOrder db o, o) ∧
      o.status = OrderStatus.PENDING ∧ o.stripeSessionId = some sid ∧
      o.amount = p.price ∧ o.paymentMethod = PaymentMethod.GATEWAY ∧
      (addOrder db o).wallets = db.wallets ∧
      (addOrder db o).walletTransactions = db.walletTransactions ∧
      (addOrder db o).products = db.products ∧
      (addOrder db o).orders = o :: db.orders := by
  refine ⟨{ id := oid
            userId := u
            productId := pid
            merchantId := p.merchantId
            paymentMethod := PaymentMethod.GATEWAY
            status := OrderStatus.PENDING
            amount := p.price
            idempotencyKey := k
            stripeSessionId := some sid },
    ?_, rfl, rfl, rfl, rfl, rfl, rfl, rfl, rfl⟩
  unfold createGatewayOrder
  rw [hp]
  dsimp only
  rw [if_neg (by simp [ha]), if_neg (by omega), if_neg (by simp [hu])]

/-- C9 witness: creating a gateway order for the in-stock $9.99 poster
changes only the orders table. -/
theorem createGatewayOrder_frame_witness :
    ∃ o, createGatewayOrder c9Db "buyer-9" "prod-9" "key-9" "sess-9" "order-9" =
        .ok (addOrder c9Db o, o) ∧
      o.status = OrderStatus.PENDING ∧ o.stripeSessionId = some "sess-9" ∧
      o.amount = c9Product.price ∧ o.paymentMethod = PaymentMethod.GATEWAY ∧
      (addOrder c9Db o).wallets = c9Db.wallets ∧
      (addOrder c9Db o).walletTransactions = c9Db.walletTransactions ∧
      (addOrder c9Db o).products = c9Db.products ∧
      (addOrder c9Db o).orders = o :: c9Db.orders := by
  exact createGatewayOrder_frame c9Db "buyer-9" "prod-9" "key-9" "sess-9"
    "order-9" c9Product (by decide) (by decide) (by decide) (by decide)

/-- C10: for an unlocked wallet and an amount between the configured
minimum and the balance inclusive, `withdraw` succeeds and leaves balance
`b − a` (so withdrawing the whole balance leaves exactly 0), and
`InsufficientFunds` is raised exactly when the amount strictly exceeds the
balance. -/
theorem withdraw_full_balance_boundary (cfg : AppConfig) (db : Db)
    (u : String) (a : Int) (d : Option String) (w : Wallet)
    (hw : findWallet db u = some w) (hl : w.isLocked = false)
    (hmin : cfg.minimumWithdrawal ≤ a) :
    (a ≤ w.balance → ∃ db' t,
      withdraw cfg db u a d = .ok (db', { w with balance := w.balance - a }, t) ∧
      findWallet db' u = some { w with balance := w.balance - a }) ∧
    (withdraw cfg db u a d = .error (.InsufficientFunds a w.balance) ↔
      w.balance < a) := by
  have hok : ∀ hb : ¬ w.balance < a,
      withdraw cfg db u a d =
        .ok (addTransaction (setWalletBalance db u (w.balance - a))
          { walletId := u, type := TransactionType.WITHDRAWAL,
            status := TransactionStatus.COMPLETED, amount := a,
            balanceBefore := w.balance, balanceAfter := w.balance - a,
            description := d.getD "Wallet withdrawal" },
          { w with balance := w.balance - a },
          { walletId := u, type := TransactionType.WITHDRAWAL,
            status := TransactionStatus.COMPLETED, amount := a,
            balanceBefore := w.balance, balanceAfter := w.balance - a,
            description := d.getD "Wallet withdrawal" }) := by
    intro hb
    unfold withdraw
    rw [if_neg (by omega)]
    rw [hw]
    dsimp only
    rw [if_neg (by simp [hl]), if_neg hb]
  constructor
  · intro hb
    refine ⟨_, _, hok (by omega), ?_⟩
    exact findWallet_set_self (w.balance - a) hw
  · constructor
    · intro he
      by_cases hb : w.balance < a
      · exact hb
      · rw [hok hb] at he
        exact absurd he (by simp)
    · intro hb
      unfold withdraw
      rw [if_neg (by omega)]
      rw [hw]
      dsimp only
      rw [if_neg (by simp [hl]), if_pos hb]

/-- C10 witness: withdrawing the entire $500.00 balance succeeds and leaves
exactly $0.00. -/
theorem withdraw_full_balance_boundary_witness :
    (∃ db' t, withdraw defaultConfig c10Db "alice" 50000 none =
        .ok (db', { userId := "alice", balance := 0, isLocked := false }, t) ∧
      findWallet db' "alice" =
        some { userId := "alice", balance := 0, isLocked := false }) ∧
    ¬ withdraw defaultConfig c10Db "alice" 50000 none =
      .error (.InsufficientFunds 50000 50000) := by
  have h := withdraw_full_balance_boundary defaultConfig c10Db "alice" 50000
    none { userId := "alice", balance := 50000, isLocked := false }
    (by decide) (by decide) (by decide)
  refine ⟨?_, ?_⟩
  · exact h.1 (by decide)
  · intro he
    exact absurd (h.2.1 he) (by decide)

/-- C1: a successful wallet-path purchase (product exists, active, in
stock; buyer wallet unlocked with balance at least the price; the seller
wallet exists and the buyer is not the seller) debits the buyer's wallet by
exactly the locked product's price appending a PAYMENT entry, credits the
seller's wallet by the same amount appending an EARNING entry, decrements
available-units by exactly 1, and inserts a COMPLETED order whose amount is
the locked price. -/
theorem createWalletOrder_success_effects (db : Db) (u pid k oid : String)
    (p : Product) (w mw : Wallet)
    (hp : findProduct db pid = some p) (ha : p.isActive = true)
    (hs : 0 < p.availableUnits)
    (hw : findWallet db u = some w) (hl : w.isLocked = false)
    (hb : p.price ≤ w.balance)
    (hm : findWallet db p.merchantId = some mw)
    (hne : u ≠ p.merchantId) :
    ∃ db' o, createWalletOrder db u pid k oid = .ok (db', o) ∧
      o.status = OrderStatus.COMPLETED ∧ o.amount = p.price ∧
      o.paymentMethod = PaymentMethod.WALLET ∧
      findWallet db' u = some { w with balance := w.balance - p.price } ∧
      findWallet db' p.merchantId =
        some { mw with balance := mw.balance + p.price } ∧
      (∃ pt et, db'.walletTransactions = et :: pt :: db.walletTransactions ∧
        pt.type = TransactionType.PAYMENT ∧ pt.walletId = u ∧
        pt.amount = p.price ∧ pt.status = TransactionStatus.COMPLETED ∧
        et.type = TransactionType.EARNING ∧ et.walletId = p.merchantId ∧
        et.amount = p.price ∧ et.status = TransactionStatus.COMPLETED) ∧
      findProduct db' pid =
        some { p with availableUnits := p.availableUnits - 1 } ∧
      db'.orders = o :: db.orders := by
  have hded := deduct_ok_of_found hw hl hb "order" k ("Purchase: " ++ p.name)
  have hmw1 : findWallet (addTransaction (setWalletBalance db u (w.balance - p.price))
      { walletId := u, type := TransactionType.PAYMENT,
        status := TransactionStatus.COMPLETED, amount := p.price,
        balanceBefore := w.balance, balanceAfter := w.balance - p.price,
        description := "Purchase: " ++ p.name, referenceType := some "order",
        referenceId := some k }) p.merchantId = some mw := by
    rw [findWallet_addTransaction, findWallet_set_ne db _ (Ne.symm hne)]
    exact hm
  have hcred := credit_ok_of_found hmw1 p.price "order" k ("Sale: " ++ p.name)
  have hmain : createWalletOrder db u pid k oid =
      .ok (addOrder
        (decrementProductUnits
          (addTransaction
            (setWalletBalance
              (addTransaction (setWalletBalance db u (w.balance - p.price))
                { walletId := u, type := TransactionType.PAYMENT,
                  status := TransactionStatus.COMPLETED, amount := p.price,
                  balanceBefore := w.balance,
                  balanceAfter := w.balance - p.price,
                  description := "Purchase: " ++ p.name,
                  referenceType := some "order", referenceId := some k })
              p.merchantId (mw.balance + p.price))
            { walletId := p.merchantId, type := TransactionType.EARNING,
              status := TransactionStatus.COMPLETED, amount := p.price,
              balanceBefore := mw.balance,
              balanceAfter := mw.balance + p.price,
              description := "Sale: " ++ p.name,
              referenceType := some "order", referenceId := some k })
          pid)
        { id := oid, userId := u, productId := pid,
          merchantId := p.merchantId,
          paymentMethod := PaymentMethod.WALLET,
          status := OrderStatus.COMPLETED, amount := p.price,
          idempotencyKey := k, stripeSessionId := none,
          stripePaymentIntentId := none, hasCompletedAt := true },
        { id := oid, userId := u, productId := pid,
          merchantId := p.merchantId,
          paymentMethod := PaymentMethod.WALLET,
          status := OrderStatus.COMPLETED, amount := p.price,
          idempotencyKey := k, stripeSessionId := none,
          stripePaymentIntentId := none, hasCompletedAt := true }) := by
    unfold createWalletOrder
    rw [hp]
    dsimp only
    rw [if_neg (by omega), if_neg (by simp [ha]), hded]
    dsimp only
    rw [hcred]
  refine ⟨_, _, hmain, rfl, rfl, rfl, ?_, ?_, ?_, ?_, rfl⟩
  · rw [findWallet_addOrder, findWallet_decrement, findWallet_addTransaction,
      findWallet_set_ne _ _ hne, findWallet_addTransaction]
    exact findWallet_set_self _ hw
  · rw [findWallet_addOrder, findWallet_decrement, findWallet_addTransaction]
    exact findWallet_set_self _ hmw1
  · exact ⟨_, _, rfl, rfl, rfl, rfl, rfl, rfl, rfl, rfl, rfl⟩
  · rw [findProduct_addOrder]
    exact findProduct_decrement_self hp

/-- C1 witness: buying the $199.99 widget from a $500.00 wallet. -/
theorem createWalletOrder_success_effects_witness :
    ∃ db' o, createWalletOrder c1Db "buyer-1" "prod-1" "key-1" "order-1" =
        .ok (db', o) ∧
      o.status = OrderStatus.COMPLETED ∧ o.amount = c1Product.price ∧
      o.paymentMethod = PaymentMethod.WALLET ∧
      findWallet db' "buyer-1" =
        some { c1Buyer with balance := c1Buyer.balance - c1Product.price } ∧
      findWallet db' c1Product.merchantId =
        some { c1Merchant with balance := c1Merchant.balance + c1Product.price } ∧
      (∃ pt et, db'.walletTransactions = et :: pt :: c1Db.walletTransactions ∧
        pt.type = TransactionType.PAYMENT ∧ pt.walletId = "buyer-1" ∧
        pt.amount = c1Product.price ∧ pt.status = TransactionStatus.COMPLETED ∧
        et.type = TransactionType.EARNING ∧ et.walletId = c1Product.merchantId ∧
        et.amount = c1Product.price ∧ et.status = TransactionStatus.COMPLETED) ∧
      findProduct db' "prod-1" =
        some { c1Product with availableUnits := c1Product.availableUnits - 1 } ∧
      db'.orders = o :: c1Db.orders := by
  exact createWalletOrder_success_effects c1Db "buyer-1" "prod-1" "key-1"
    "order-1" c1Product c1Buyer c1Merchant (by decide) (by decide) (by decide)
    (by decide) (by decide) (by decide) (by decide) (by decide)

/-- C4: gateway completion is idempotent.  Completing a PENDING order (with
the session id unique among orders and order ids unique) yields exactly one
COMPLETED order for that session and exactly one seller-wallet EARNING
credit; a second call with the same session id returns the already-completed
order unchanged, and in general a call on an already-COMPLETED order is a
no-op returning the existing order. -/
theorem completeGatewayOrder_idempotent (db : Db) (sid pid : String)
    (order : Order) (p : Product) (mw : Wallet)
    (hord : db.orders.find? (sessionMatches sid) = some order)
    (hnc : order.status ≠ OrderStatus.COMPLETED)
    (hp : findProduct db order.productId = some p)
    (hs : 0 < p.availableUnits)
    (hm : findWallet db order.merchantId = some mw)
    (hnd : (db.orders.map Order.id).Nodup)
    (huniq : ∀ o ∈ db.orders, sessionMatches sid o = true → o = order) :
    ∃ db1 o1, completeGatewayOrder db sid pid = .ok (db1, o1) ∧
      o1.status = OrderStatus.COMPLETED ∧
      completeGatewayOrder db1 sid pid = .ok (db1, o1) ∧
      db1.orders.filter (sessionMatches sid) = [o1] ∧
      (∃ et, db1.walletTransactions = et :: db.walletTransactions ∧
        et.type = TransactionType.EARNING ∧ et.walletId = order.merchantId ∧
        et.amount = order.amount ∧
        et.status = TransactionStatus.COMPLETED) ∧
      findWallet db1 order.merchantId =
        some { mw with balance := mw.balance + order.amount } ∧
      (∀ db0 o0, db0.orders.find? (sessionMatches sid) = some o0 →
        o0.status = OrderStatus.COMPLETED →
        completeGatewayOrder db0 sid pid = .ok (db0, o0)) := by
  have hcred := credit_ok_of_found hm order.amount "order" order.idempotencyKey
    ("Sale: " ++ p.name ++ " (Stripe)")
  have hmain : completeGatewayOrder db sid pid =
      .ok (setOrder
        (decrementProductUnits
          (addTransaction
            (setWalletBalance db order.merchantId (mw.balance + order.amount))
            { walletId := order.merchantId, type := TransactionType.EARNING,
              status := TransactionStatus.COMPLETED, amount := order.amount,
              balanceBefore := mw.balance,
              balanceAfter := mw.balance + order.amount,
              description := "Sale: " ++ p.name ++ " (Stripe)",
              referenceType := some "order",
              referenceId := some order.idempotencyKey })
          order.productId)
        order.id
        { order with
            status := OrderStatus.COMPLETED
            stripePaymentIntentId := some pid
            hasCompletedAt := true },
        { order with
            status := OrderStatus.COMPLETED
            stripePaymentIntentId := some pid
            hasCompletedAt := true }) := by
    unfold completeGatewayOrder
    rw [hord]
    dsimp only
    rw [if_neg (by simp [hnc])]
    rw [hp]
    dsimp only
    rw [if_neg (by omega), hcred]
  have hq0 : sessionMatches sid order = true := List.find?_some hord
  have hq1 : sessionMatches sid ({ order with
      status := OrderStatus.COMPLETED
      stripePaymentIntentId := some pid
      hasCompletedAt := true } : Order) = true := hq0
  have hfind2 := find?_setOrder_hit hord hq1
  have hnoop : ∀ (db0 : Db) (o0 : Order),
      db0.orders.find? (sessionMatches sid) = some o0 →
      o0.status = OrderStatus.COMPLETED →
      completeGatewayOrder db0 sid pid = .ok (db0, o0) := by
    intro db0 o0 h0 hst0
    unfold completeGatewayOrder
    rw [h0]
    dsimp only
    rw [if_pos (by simp [hst0])]
  refine ⟨_, _, hmain, rfl, ?_, ?_, ?_, ?_, hnoop⟩
  · exact hnoop _ _ hfind2 rfl
  · exact filter_setOrder_unique hq1 db.orders
      (List.mem_of_find?_eq_some hord) hnd huniq
  · exact ⟨_, rfl, rfl, rfl, rfl, rfl⟩
  · rw [findWallet_setOrder, findWallet_decrement, findWallet_addTransaction]
    exact findWallet_set_self _ hm

/-- C4 witness: delivering the same confirmation event twice for the $25.00
ticket completes the order once and credits the merchant once. -/
theorem completeGatewayOrder_idempotent_witness :
    ∃ db1 o1, completeGatewayOrder c4Db "sess-4" "pi-4" = .ok (db1, o1) ∧
      o1.status = OrderStatus.COMPLETED ∧
      completeGatewayOrder db1 "sess-4" "pi-4" = .ok (db1, o1) ∧
      db1.orders.filter (sessionMatches "sess-4") = [o1] ∧
      (∃ et, db1.walletTransactions = et :: c4Db.walletTransactions ∧
        et.type = TransactionType.EARNING ∧ et.walletId = c4Order.merchantId ∧
        et.amount = c4Order.amount ∧
        et.status = TransactionStatus.COMPLETED) ∧
      findWallet db1 c4Order.merchantId =
        some { userId := "merchant-4", balance := 100 + 2500,
               isLocked := false } := by
  have h := completeGatewayOrder_idempotent c4Db "sess-4" "pi-4" c4Order
    c4Product { userId := "merchant-4", balance := 100, isLocked := false }
    (by decide) (by decide) (by decide) (by decide) (by decide) (by decide)
    (by decide)
  obtain ⟨db1, o1, h1, h2, h3, h4, h5, h6, h7⟩ := h
  exact ⟨db1, o1, h1, h2, h3, h4, h5, h6⟩

/-- C5: every entry written by any committed operation satisfies
`balance-after = balance-before ± amount` per the kind's sign convention,
and after any sequence of committed operations each wallet's balance equals
the `balance-after` of its most recently written entry. -/
theorem ledger_delta_and_chain_invariant (cfg : AppConfig) (db : Db)
    (ops : List WalletOp) (hd : ledgerDeltasOk db) (hc : balancesChained db) :
    ledgerDeltasOk (runOps cfg db ops) ∧ balancesChained (runOps cfg db ops) := by
  induction ops generalizing db with
  | nil => exact ⟨hd, hc⟩
  | cons op ops ih =>
    have h := runOp_preserves_ledger cfg op hd hc
    exact ih _ h.1 h.2

/-- C5 witness: the §8 round trip — deposit $500.00 then withdraw $100.00
from a fresh wallet — maintains both ledger invariants. -/
theorem ledger_delta_and_chain_invariant_witness :
    ledgerDeltasOk (runOps defaultConfig c5Db c5Ops) ∧
    balancesChained (runOps defaultConfig c5Db c5Ops) :=
  ledger_delta_and_chain_invariant defaultConfig c5Db c5Ops
    (by unfold ledgerDeltasOk; decide)
    (by unfold balancesChained; decide)

/-- C6, amended: a committed operation preserves nonnegative balances
provided its own amount is nonnegative on the deposit and credit paths; the
withdraw and debit paths preserve nonnegativity for all accepted arguments
(their balance check guards them).  The claim as stated, quantifying over
"any amount the service-level code does not reject", fails because deposit
and credit accept negative amounts (see the counterexample). -/
theorem nonneg_balance_preserved (cfg : AppConfig) (db : Db) (op : WalletOp)
    (hb : nonnegBalances db) (hp : nonnegPrices db)
    (ho : nonnegOrderAmounts db) (ha : opAmountsNonneg op) :
    nonnegBalances (runOp cfg db op) :=
  runOp_preserves_nonneg cfg op hb hp ho ha

/-- C6 witness: crediting $1.00 to the zero-balance wallet keeps all
balances nonnegative. -/
theorem nonneg_balance_preserved_witness :
    nonnegBalances (runOp defaultConfig c6Db
      (WalletOp.creditOp "merchant-6" 100 "order-6" "Sale: Widget")) :=
  nonneg_balance_preserved defaultConfig c6Db
    (WalletOp.creditOp "merchant-6" 100 "order-6" "Sale: Widget")
    (by unfold nonnegBalances; decide)
    (by unfold nonnegPrices; decide)
    (by unfold nonnegOrderAmounts; decide)
    (by unfold opAmountsNonneg; decide)

end PaymentFlow
